import Mathlib

/-!
Verification of the BeatBound voting and leaderboard engine.

The definitions below are a shallow embedding of the vote routes
(`router.post`, `router.delete`, `router.get("/stream")`,
`router.get("/leaderboard/:challengeId")`), of the relevant parts of the
database schema (tables `votes`, `submissions`, `challenges`, the unique
index `votes_unique_idx` on `(submission_id, user_id)`), and of the global
`errorHandler` middleware. Identifiers (uuids) are modelled as natural
numbers; counters as integers; the database as explicit state.
-/

namespace BeatBound

/-- Challenge lifecycle states, from `challengeStatusEnum` in the schema. -/
inductive ChallengeStatus
  | DRAFT | ACTIVE | VOTING | ENDED | CANCELLED
deriving DecidableEq

/-- Submission processing states, from `submissionStatusEnum` in the schema. -/
inductive SubmissionStatus
  | PROCESSING | READY | FAILED | DISQUALIFIED
deriving DecidableEq

/-- The fields of a challenge row that the voting engine reads. -/
structure Challenge where
  id : Nat
  status : ChallengeStatus
deriving DecidableEq

/-- The fields of a submission row that the voting engine reads or writes. -/
structure Submission where
  id : Nat
  challengeId : Nat
  status : SubmissionStatus
  disqualified : Bool
  voteCount : Int
deriving DecidableEq

/-- A row of the `votes` table. -/
structure Vote where
  id : Nat
  submissionId : Nat
  userId : Nat
  ipAddress : String
deriving DecidableEq

/-- The `action` field of a vote-delta event. -/
inductive VoteAction
  | add | remove
deriving DecidableEq

/-- A vote-delta event published to the Redis topic `votes:challengeId`;
the topic is identified here by the challenge id. -/
structure VoteEvent where
  topic : Nat
  submissionId : Nat
  voteCount : Int
  action : VoteAction
deriving DecidableEq

/-- The durable store plus the pub/sub channel: the three tables the engine
touches, the stream of published events, and a counter modelling fresh vote
id generation (`uuid defaultRandom`). -/
structure DB where
  challenges : List Challenge
  submissions : List Submission
  votes : List Vote
  published : List VoteEvent
  nextVoteId : Nat
deriving DecidableEq

/-- Errors raised by the vote routes: the `ApiError` subclasses used there,
plus a raw Postgres unique-constraint violation (SQLSTATE 23505) escaping
from the store, plus the unreachable branch where an `update ... returning`
on a previously found submission returns no row. -/
inductive VoteErr
  | notFound (resource : String)
  | badRequest (message : String)
  | pgUnique
  | internalFault
deriving DecidableEq

/-- The `select ... where eq(submissions.id, sid) limit 1` query. -/
def findSubmission (db : DB) (sid : Nat) : Option Submission :=
  (db.submissions.filter (fun s => s.id == sid)).head?

/-- The `select ... where eq(challenges.id, cid) limit 1` query. -/
def findChallenge (db : DB) (cid : Nat) : Option Challenge :=
  (db.challenges.filter (fun c => c.id == cid)).head?

/-- The rows of `votes` matching `(submissionId, userId)` — the column pair
covered by the unique index `votes_unique_idx`. -/
def votesFor (db : DB) (sid uid : Nat) : List Vote :=
  db.votes.filter (fun v => v.submissionId == sid && v.userId == uid)

/-- All vote rows for a submission, over every voter. -/
def rowsFor (db : DB) (sid : Nat) : List Vote :=
  db.votes.filter (fun v => v.submissionId == sid)

/-- The store-level insert into `votes`: the unique index
`votes_unique_idx` makes the insert itself reject a second row for the same
`(submissionId, userId)` pair with a 23505 error, independently of any
application-level pre-check. -/
def insertVote (db : DB) (sid uid : Nat) (ip : String) :
    Except VoteErr (Vote × DB) :=
  if votesFor db sid uid ≠ [] then .error .pgUnique
  else
    let v : Vote := { id := db.nextVoteId, submissionId := sid
                      userId := uid, ipAddress := ip }
    .ok (v, { db with votes := db.votes ++ [v], nextVoteId := db.nextVoteId + 1 })

/-- The atomic counter update
`update submissions set voteCount = voteCount + d where id = sid`. -/
def bumpCount (d : Int) (sid : Nat) (db : DB) : DB :=
  { db with submissions := (db.submissions.map
      (fun s => if s.id == sid then { s with voteCount := s.voteCount + d } else s)) }

/-- Publishing one event on the Broadcast Channel (`redisClient.publish`). -/
def publish (ev : VoteEvent) (db : DB) : DB :=
  { db with published := db.published ++ [ev] }

/-- The CastVote handler, `router.post` in the votes route file: read the
submission and check status and disqualification, read the challenge and
check the voting phase, pre-check for an existing vote, insert the vote row,
increment the counter, publish the add delta, and return the new vote with
the new count. Every failure leaves the state unchanged. -/
def castVote (uid sid : Nat) (ip : String) (db : DB) :
    Except VoteErr (Vote × Int) × DB :=
  match findSubmission db sid with
  | none => (.error (.notFound "Submission"), db)
  | some sub =>
    if sub.status ≠ .READY then
      (.error (.badRequest "This submission is not ready for voting"), db)
    else if sub.disqualified then
      (.error (.badRequest "This submission has been disqualified"), db)
    else if (findChallenge db sub.challengeId).all (fun c => c.status ≠ .VOTING) then
      (.error (.badRequest "Voting is not currently open for this challenge"), db)
    else if votesFor db sid uid ≠ [] then
      (.error (.badRequest "You have already voted for this submission"), db)
    else
      match insertVote db sid uid ip with
      | .error e => (.error e, db)
      | .ok (v, db1) =>
        let db2 := bumpCount 1 sid db1
        match findSubmission db2 sid with
        | none => (.error .internalFault, db2)
        | some sub2 =>
          (.ok (v, sub2.voteCount),
           publish { topic := sub.challengeId, submissionId := sid
                     voteCount := sub2.voteCount, action := .add } db2)

/-- The RetractVote handler, `router.delete` in the votes route file: read
the submission, check the challenge is still in the voting phase, delete the
vote row for `(sid, uid)` if one exists, decrement the counter, publish the
remove delta. Note that no status or disqualification check is made. -/
def retractVote (uid sid : Nat) (db : DB) : Except VoteErr Int × DB :=
  match findSubmission db sid with
  | none => (.error (.notFound "Submission"), db)
  | some sub =>
    if (findChallenge db sub.challengeId).all (fun c => c.status ≠ .VOTING) then
      (.error (.badRequest "Voting is no longer open for this challenge"), db)
    else if votesFor db sid uid = [] then
      (.error (.badRequest "You have not voted for this submission"), db)
    else
      let db1 := { db with votes :=
        (db.votes.filter (fun v => ¬(v.submissionId == sid && v.userId == uid))) }
      let db2 := bumpCount (-1) sid db1
      match findSubmission db2 sid with
      | none => (.error .internalFault, db2)
      | some sub2 =>
        (.ok sub2.voteCount,
         publish { topic := sub.challengeId, submissionId := sid
                   voteCount := sub2.voteCount, action := .remove } db2)

/-- Descending vote-count order used by the leaderboard query
(`orderBy desc submissions.voteCount`). -/
def voteGE (a b : Submission) : Prop := b.voteCount ≤ a.voteCount

instance : DecidableRel voteGE :=
  fun a b => inferInstanceAs (Decidable (b.voteCount ≤ a.voteCount))

instance : IsTotal Submission voteGE := ⟨fun a b => le_total b.voteCount a.voteCount⟩

instance : IsTrans Submission voteGE := ⟨fun _ _ _ h1 h2 => le_trans h2 h1⟩

/-- The leaderboard filter: submissions of the challenge with status READY
and not disqualified. -/
def eligibleSubs (cid : Nat) (db : DB) : List Submission :=
  db.submissions.filter (fun s =>
    s.challengeId == cid && s.status == SubmissionStatus.READY && !s.disqualified)

/-- The percentage computation of the leaderboard route:
`totalVotes > 0 ? Math.round (voteCount / totalVotes * 1000) / 10 : 0`. -/
def pctOf (v t : Int) : ℚ :=
  if 0 < t then ((round (((v : ℚ) / (t : ℚ)) * 1000) : ℤ) : ℚ) / 10 else 0

/-- One returned leaderboard row: the submission columns plus the computed
rank and votePercentage. -/
structure LBEntry where
  sub : Submission
  rank : Nat
  votePercentage : ℚ
deriving DecidableEq

/-- The body of the leaderboard response. -/
structure LBResult where
  entries : List LBEntry
  totalVotes : Int
deriving DecidableEq

/-- The rows the leaderboard query returns: eligible submissions ordered by
voteCount descending, limited to 50. -/
def lbWindow (cid : Nat) (db : DB) : List Submission :=
  (List.insertionSort voteGE (eligibleSubs cid db)).take 50

/-- The `totalVotes` reduce over the returned window. -/
def lbTotal (cid : Nat) (db : DB) : Int :=
  ((lbWindow cid db).map (fun s => s.voteCount)).sum

/-- The `leaderboardWithPercentages` map: each windowed row annotated with
its 1-based rank and vote percentage, plus the window total. -/
def leaderboardOf (cid : Nat) (db : DB) : LBResult :=
  { entries := (lbWindow cid db).enum.map (fun p =>
      ({ sub := p.2, rank := p.1 + 1,
         votePercentage := pctOf p.2.voteCount (lbTotal cid db) } : LBEntry)),
    totalVotes := lbTotal cid db }

/-- The leaderboard handler (`router.get "/leaderboard/:challengeId"`):
check the challenge exists, then compute the ranked window. The handler
runs only selects, so the state is returned unchanged. -/
def fetchLeaderboard (cid : Nat) (db : DB) : Except VoteErr LBResult × DB :=
  match findChallenge db cid with
  | none => (.error (.notFound "Challenge"), db)
  | some _ => (.ok (leaderboardOf cid db), db)

/-- First failing check in an ordered list of (failed, error) pairs. -/
def firstFailure : List (Bool × VoteErr) → Option VoteErr
  | [] => none
  | (b, e) :: rest => if b then some e else firstFailure rest

/-- Modelled from the spec wording of CastVote: the five preconditions in
the order the spec lists them, each paired with its distinct failure. -/
def castChecks (uid sid : Nat) (db : DB) : List (Bool × VoteErr) :=
  [((findSubmission db sid).isNone, .notFound "Submission"),
   ((findSubmission db sid).any (fun s => ¬(s.status = SubmissionStatus.READY)),
    .badRequest "This submission is not ready for voting"),
   ((findSubmission db sid).any (fun s => s.disqualified),
    .badRequest "This submission has been disqualified"),
   ((findSubmission db sid).any (fun s =>
      (findChallenge db s.challengeId).all (fun c => ¬(c.status = ChallengeStatus.VOTING))),
    .badRequest "Voting is not currently open for this challenge"),
   (votesFor db sid uid ≠ [],
    .badRequest "You have already voted for this submission")]

/-- Modelled from the spec wording of CastVote: the first failing
precondition determines the result and leaves the state unchanged; when
every check passes, the effects run and the created vote plus the new
count are returned. -/
def specCastVote (uid sid : Nat) (ip : String) (db : DB) :
    Except VoteErr (Vote × Int) × DB :=
  match firstFailure (castChecks uid sid db) with
  | some e => (.error e, db)
  | none =>
    match findSubmission db sid, insertVote db sid uid ip with
    | some sub, .ok (v, db1) =>
      let db2 := bumpCount 1 sid db1
      match findSubmission db2 sid with
      | some sub2 =>
        (.ok (v, sub2.voteCount),
         publish { topic := sub.challengeId, submissionId := sid,
                   voteCount := sub2.voteCount, action := .add } db2)
      | none => (.error .internalFault, db2)
    | _, _ => (.error .internalFault, db)

/-- Errors as the global errorHandler middleware sees them: an ApiError
carrying its statusCode and class-derived name, or a raw Postgres error
carrying its SQLSTATE code. -/
inductive AppError
  | api (statusCode : Nat) (name : String) (message : String)
  | pg (code : String)
deriving DecidableEq

/-- The JSON body and status the errorHandler sends. -/
structure ErrorResponse where
  status : Nat
  error : String
  message : String
deriving DecidableEq

/-- The global errorHandler middleware: ApiError instances keep their
statusCode; Postgres code 23505 becomes 409 Conflict; Postgres code 23503
becomes 400; anything else becomes 500. -/
def errorHandler (e : AppError) : ErrorResponse :=
  match e with
  | .api sc name msg => { status := sc, error := name, message := msg }
  | .pg code =>
    if code = "23505" then
      { status := 409, error := "Conflict",
        message := "A record with this value already exists" }
    else if code = "23503" then
      { status := 400, error := "BadRequest",
        message := "Referenced record does not exist" }
    else
      { status := 500, error := "InternalServerError",
        message := "An unexpected error occurred" }

/-- How each route error reaches the errorHandler: the ApiError subclasses
carry their statusCode and name, and the store-level unique-index violation
arrives as a raw Postgres error with SQLSTATE 23505. -/
def voteErrToApp : VoteErr → AppError
  | .notFound r => .api 404 "NotFound" (r ++ " not found")
  | .badRequest m => .api 400 "BadRequest" m
  | .pgUnique => .pg "23505"
  | .internalFault => .pg "XX000"

/-- One server-sent event frame carrying a payload. -/
def sseData (payload : String) : String := "data: " ++ payload ++ "\n\n"

/-- The JSON text of the initial acknowledgement
`JSON.stringify (type connected, challengeId)`. -/
def connectedJson (cid : String) : String :=
  "\x7b\"type\":\"connected\",\"challengeId\":\"" ++ cid ++ "\"\x7d"

/-- A live-feed connection as the stream route actually builds it over its
subscriber, which the redis config creates as an ioredis client: the
subscribed topic, the frames written at open, and the listeners registered
with the on message event — an ioredis subscriber delivers a published
message only to those listeners, and the route registers none. Each
listener maps (channel, payload) to the frame it writes. -/
structure StreamConn where
  topic : String
  initialWrites : List String
  messageListeners : List (String → String → String)

/-- Opening the live feed (`router.get "/stream"`): without a challengeId
the request is answered 400 and no subscriber is created; with one, the
connected acknowledgement is written and an ioredis subscriber is created
and subscribed to `votes:challengeId`. The handler passes its callback as
the second argument of subscribe — for an ioredis client that is the slot
of the node-style completion callback, not of a message listener — and it
never registers an on message listener, so the listener list is empty. -/
def streamOpen (challengeId : Option String) : Except (Nat × String) StreamConn :=
  match challengeId with
  | none => .error (400, "challengeId is required")
  | some cid =>
    .ok { topic := "votes:" ++ cid,
          initialWrites := [sseData (connectedJson cid)],
          messageListeners := [] }

/-- The frame written when ioredis invokes the callback the route passed
to subscribe: it is invoked once as a completion callback with the
arguments (err, count), err being null on success, and the handler
interpolates its first parameter into the data template, so the text null
is framed. -/
def subscribeCompletionWrite : String := sseData "null"

/-- Everything written to one client for a sequence of (channel, payload)
events published while it was connected: the frames written at open, the
one completion-callback frame, and then, for each event on the subscribed
topic, the frames of the registered message listeners — the stream route
registers none, so no published event produces any write. -/
def clientWrites (conn : StreamConn) (pubs : List (String × String)) : List String :=
  conn.initialWrites ++ [subscribeCompletionWrite]
    ++ (pubs.filter (fun p => p.1 == conn.topic)).flatMap
        (fun p => conn.messageListeners.map (fun f => f p.1 p.2))

instance {ε α : Type} [DecidableEq ε] [DecidableEq α] : DecidableEq (Except ε α) := fun a b =>
  match a, b with
  | .ok x, .ok y =>
    if h : x = y then .isTrue (congrArg Except.ok h)
    else .isFalse (fun hc => h (Except.ok.inj hc))
  | .error x, .error y =>
    if h : x = y then .isTrue (congrArg Except.error h)
    else .isFalse (fun hc => h (Except.error.inj hc))
  | .ok _, .error _ => .isFalse (fun hc => Except.noConfusion hc)
  | .error _, .ok _ => .isFalse (fun hc => Except.noConfusion hc)

/-- The in-flight state of one CastVote call, one constructor per await
point of the handler. Each state carries exactly the values the remaining
code still uses: the challengeId read from the submission, the inserted
row, and the count returned by the update. -/
inductive TS
  | atReadSub
  | atReadChal (chalId : Nat)
  | atPrecheck (chalId : Nat)
  | atInsert (chalId : Nat)
  | atIncrement (chalId : Nat) (v : Vote)
  | atPublish (chalId : Nat) (v : Vote) (newCount : Int)
  | done (r : Except VoteErr (Vote × Int))
deriving DecidableEq

/-- One atomic step (one store or pub/sub round-trip) of a CastVote call,
cut exactly at the await points of the handler. -/
def castStep (uid sid : Nat) (ip : String) : TS → DB → TS × DB
  | .atReadSub, db =>
    (match findSubmission db sid with
     | none => .done (.error (.notFound "Submission"))
     | some sub =>
       if sub.status ≠ .READY then
         .done (.error (.badRequest "This submission is not ready for voting"))
       else if sub.disqualified then
         .done (.error (.badRequest "This submission has been disqualified"))
       else .atReadChal sub.challengeId, db)
  | .atReadChal cId, db =>
    (if (findChallenge db cId).all (fun c => c.status ≠ .VOTING) then
       .done (.error (.badRequest "Voting is not currently open for this challenge"))
     else .atPrecheck cId, db)
  | .atPrecheck cId, db =>
    (if votesFor db sid uid ≠ [] then
       .done (.error (.badRequest "You have already voted for this submission"))
     else .atInsert cId, db)
  | .atInsert cId, db =>
    (match insertVote db sid uid ip with
     | .error e => (.done (.error e), db)
     | .ok (v, db1) => (.atIncrement cId v, db1))
  | .atIncrement cId v, db =>
    (let db1 := bumpCount 1 sid db
     match findSubmission db1 sid with
     | none => (.done (.error .internalFault), db1)
     | some sub2 => (.atPublish cId v sub2.voteCount, db1))
  | .atPublish cId v n, db =>
    (.done (.ok (v, n)),
     publish { topic := cId, submissionId := sid, voteCount := n, action := .add } db)
  | .done r, db => (.done r, db)

/-- Two CastVote calls in flight against one shared store. -/
structure Conc where
  a : TS
  b : TS
  db : DB
deriving DecidableEq

/-- Interleaved execution: each scheduler choice runs one atomic step of
call A (true) or call B (false); a finished call ignores further choices. -/
def concStep (uid sid : Nat) (ip : String) (c : Conc) (choice : Bool) : Conc :=
  if choice then
    let s := castStep uid sid ip c.a c.db
    { c with a := s.1, db := s.2 }
  else
    let s := castStep uid sid ip c.b c.db
    { c with b := s.1, db := s.2 }

/-- Run a whole schedule of interleaving choices. -/
def execSched (uid sid : Nat) (ip : String) (sched : List Bool) (c : Conc) : Conc :=
  sched.foldl (concStep uid sid ip) c

/-- Boolean success test on a route result. -/
def isOkE {ε α : Type} : Except ε α → Bool
  | .ok _ => true
  | .error _ => false

/-- One Vote Ledger invocation: a cast or a retraction. -/
inductive LedgerOp
  | cast (uid sid : Nat) (ip : String)
  | retract (uid sid : Nat)

/-- The state after one ledger invocation (failures leave it unchanged). -/
def applyOp (db : DB) : LedgerOp → DB
  | .cast uid sid ip => (castVote uid sid ip db).2
  | .retract uid sid => (retractVote uid sid db).2

/-- Whether an operation is a successful cast targeting `sid` when run on
`db`. -/
def isSuccCastOn (sid : Nat) (db : DB) : LedgerOp → Bool
  | .cast uid s ip => s == sid && isOkE (castVote uid s ip db).1
  | _ => false

/-- Whether an operation is a successful retraction targeting `sid` when
run on `db`. -/
def isSuccRetractOn (sid : Nat) (db : DB) : LedgerOp → Bool
  | .retract uid s => s == sid && isOkE (retractVote uid s db).1
  | _ => false

/-- Run a sequence of ledger invocations, returning how many were
successful casts on `sid`, how many were successful retractions on `sid`,
and the final state. -/
def runLedger (sid : Nat) : DB → List LedgerOp → Nat × Nat × DB
  | db, [] => (0, 0, db)
  | db, op :: ops =>
    let r := runLedger sid (applyOp db op) ops
    ((if isSuccCastOn sid db op then 1 else 0) + r.1,
     (if isSuccRetractOn sid db op then 1 else 0) + r.2.1,
     r.2.2)

/-- The store invariants the schema enforces and the routes preserve: every
denormalized voteCount equals the number of vote rows of that submission,
and (the unique index) at most one vote row exists per
(submission, voter) pair. -/
def StoreInv (db : DB) : Prop :=
  (∀ s ∈ db.submissions, s.voteCount = ((rowsFor db s.id).length : Int)) ∧
  (∀ sid uid : Nat, (votesFor db sid uid).length ≤ 1)

/-- The keep-alive frame the stream route writes on each timer tick. -/
def heartbeatLine : String := ": heartbeat\n\n"

/-- The interval passed to setInterval for the keep-alive, in milliseconds. -/
def heartbeatIntervalMs : Nat := 30000

/-- Race scenario: the challenge, in its voting phase. -/
def ch0 : Challenge := { id := 1, status := .VOTING }

/-- Race scenario: the submission, ready, not disqualified, no votes yet. -/
def sub0 : Submission :=
  { id := 1, challengeId := 1, status := .READY, disqualified := false, voteCount := 0 }

/-- Race scenario: the initial store. -/
def db0 : DB :=
  { challenges := [ch0], submissions := [sub0], votes := [],
    published := [], nextVoteId := 0 }

/-- Race scenario: the one vote row either call may insert for voter 7. -/
def v0 : Vote :=
  { id := 0, submissionId := 1, userId := 7, ipAddress := "203.0.113.9" }

/-- Race scenario: the delta event published by the winning call. -/
def ev0 : VoteEvent :=
  { topic := 1, submissionId := 1, voteCount := 1, action := .add }

/-- Race scenario: both calls at their first await against the fresh store. -/
def c0 : Conc := { a := .atReadSub, b := .atReadSub, db := db0 }

/-- Race scenario: interleave the two calls, both by voter 7 on
submission 1, under an arbitrary schedule. -/
def raceExec (sched : List Bool) : Conc :=
  execSched 7 1 "203.0.113.9" sched c0

/-- A call that has performed its insert (and so owns the vote row). -/
def passedInsert : TS → Bool
  | .atIncrement _ _ => true
  | .atPublish _ _ _ => true
  | .done (.ok _) => true
  | _ => false

/-- A call that has performed its counter increment. -/
def passedIncr : TS → Bool
  | .atPublish _ _ _ => true
  | .done (.ok _) => true
  | _ => false

/-- A call that ended in a duplicate rejection: either the application
pre-check or the store unique index turned it away. -/
def isDupErr : TS → Bool
  | .done (.error (.badRequest m)) => m == "You have already voted for this submission"
  | .done (.error .pgUnique) => true
  | _ => false

/-- A call that finished successfully. -/
def isOkDone : TS → Bool
  | .done (.ok _) => true
  | _ => false

/-- The call states reachable in the race scenario. -/
def raceStatuses : List TS :=
  [.atReadSub, .atReadChal 1, .atPrecheck 1, .atInsert 1,
   .atIncrement 1 v0, .atPublish 1 v0 1,
   .done (.ok (v0, 1)),
   .done (.error (.badRequest "You have already voted for this submission")),
   .done (.error .pgUnique)]

/-- Which pairs of call states can coexist: both reachable, never both past
the insert, and a duplicate rejection only once the other call owns the
row. -/
def okPair (a b : TS) : Bool :=
  decide (a ∈ raceStatuses) && decide (b ∈ raceStatuses) &&
  !(passedInsert a && passedInsert b) &&
  (!isDupErr a || passedInsert b) &&
  (!isDupErr b || passedInsert a)

/-- The store as determined by how far the two calls have progressed. -/
def dbOf (a b : TS) : DB :=
  { challenges := [ch0],
    submissions := [{ sub0 with
      voteCount := if passedIncr a || passedIncr b then 1 else 0 }],
    votes := if passedInsert a || passedInsert b then [v0] else [],
    published := if isOkDone a || isOkDone b then [ev0] else [],
    nextVoteId := if passedInsert a || passedInsert b then 1 else 0 }

/-- The reachability invariant of the race. -/
def RaceInv (c : Conc) : Prop :=
  okPair c.a c.b = true ∧ c.db = dbOf c.a c.b

/-- One finite check: stepping either call from any coexisting pair of
states lands in a coexisting pair and moves the store accordingly. -/
def stepPreserved : Bool :=
  raceStatuses.all fun a => raceStatuses.all fun b =>
    !okPair a b ||
    (let sA := castStep 7 1 "203.0.113.9" a (dbOf a b)
     let sB := castStep 7 1 "203.0.113.9" b (dbOf a b)
     okPair sA.1 b && decide (sA.2 = dbOf sA.1 b) &&
     okPair a sB.1 && decide (sB.2 = dbOf a sB.1))

/-- The required outcome of the race once both calls have finished. -/
def racePost (c : Conc) : Bool :=
  ((isOkDone c.a && isDupErr c.b) || (isOkDone c.b && isDupErr c.a)) &&
  decide ((votesFor c.db 1 7).length = 1) &&
  decide (findSubmission c.db 1 = some { sub0 with voteCount := 1 }) &&
  decide (c.db.published = [ev0])

/-- A schedule long enough to drain both calls from any state. -/
def drainSched : List Bool := List.replicate 6 true ++ List.replicate 6 false

/-- One finite check: from any coexisting pair of states, draining both
calls yields exactly one success and one duplicate rejection over the
expected final store. -/
def finishCheck : Bool :=
  raceStatuses.all fun a => raceStatuses.all fun b =>
    !okPair a b ||
    racePost (execSched 7 1 "203.0.113.9" drainSched { a := a, b := b, db := dbOf a b })

theorem stepPreserved_true : stepPreserved = true := by decide

theorem finishCheck_true : finishCheck = true := by decide

theorem raceInv_init : RaceInv c0 := by
  constructor
  · decide
  · decide

theorem raceInv_step (c : Conc) (ch : Bool) (h : RaceInv c) :
    RaceInv (concStep 7 1 "203.0.113.9" c ch) := by
  obtain ⟨hok, hdb⟩ := h
  have hmem := hok
  simp only [okPair, Bool.and_eq_true, decide_eq_true_eq] at hmem
  have ha : c.a ∈ raceStatuses := hmem.1.1.1.1
  have hb : c.b ∈ raceStatuses := hmem.1.1.1.2
  have hall := stepPreserved_true
  rw [stepPreserved, List.all_eq_true] at hall
  have h1 := hall c.a ha
  rw [List.all_eq_true] at h1
  have h2 := h1 c.b hb
  rw [hok] at h2
  simp only [Bool.not_true, Bool.false_or, Bool.and_eq_true, decide_eq_true_eq] at h2
  cases ch with
  | true =>
    refine ⟨?_, ?_⟩
    · simpa [concStep, hdb] using h2.1.1.1
    · simpa [concStep, hdb] using h2.1.1.2
  | false =>
    refine ⟨?_, ?_⟩
    · simpa [concStep, hdb] using h2.1.2
    · simpa [concStep, hdb] using h2.2

theorem raceInv_exec (sched : List Bool) (c : Conc) (h : RaceInv c) :
    RaceInv (execSched 7 1 "203.0.113.9" sched c) := by
  induction sched generalizing c with
  | nil => exact h
  | cons ch rest ih =>
    exact ih _ (raceInv_step c ch h)

theorem dbOf_votes_le_one (a b : TS) : (votesFor (dbOf a b) 1 7).length ≤ 1 := by
  cases hI : (passedInsert a || passedInsert b) <;>
    cases hJ : (passedIncr a || passedIncr b) <;>
    cases hK : (isOkDone a || isOkDone b) <;>
    simp [dbOf, hI, hJ, hK, votesFor, v0]

/-- C1: if two CastVote calls for the same (voter, submission) pair run
concurrently, then under every interleaving exactly one succeeds — leaving
exactly one vote row for the pair, the voteCount incremented by exactly 1,
and one published add delta — and the other receives a duplicate rejection;
at every intermediate point at most one vote row exists for the pair; and
the schedule in which both calls pass the application-level pre-check still
ends with the loser rejected by the store-level unique index (SQLSTATE
23505), showing the store constraint and not the pre-check enforces
uniqueness. -/
theorem C1_concurrent_cast_unique :
    (∀ sched : List Bool, racePost (raceExec (sched ++ drainSched)) = true) ∧
    (∀ sched : List Bool, (votesFor (raceExec sched).db 1 7).length ≤ 1) ∧
    (raceExec ([true, true, true, false, false, false] ++ drainSched)).b
      = .done (.error .pgUnique) := by
  refine ⟨?_, ?_, by decide⟩
  · intro sched
    have hInv := raceInv_exec sched c0 raceInv_init
    obtain ⟨hok0, hdb0⟩ := hInv
    have hok : okPair (raceExec sched).a (raceExec sched).b = true := hok0
    have hdb : (raceExec sched).db = dbOf (raceExec sched).a (raceExec sched).b := hdb0
    have hmem := hok
    simp only [okPair, Bool.and_eq_true, decide_eq_true_eq] at hmem
    have ha : (raceExec sched).a ∈ raceStatuses := hmem.1.1.1.1
    have hb : (raceExec sched).b ∈ raceStatuses := hmem.1.1.1.2
    have hall := finishCheck_true
    rw [finishCheck, List.all_eq_true] at hall
    have h1 := hall _ ha
    rw [List.all_eq_true] at h1
    have h2 := h1 _ hb
    rw [hok] at h2
    simp only [Bool.not_true, Bool.false_or] at h2
    have hr : raceExec (sched ++ drainSched)
        = execSched 7 1 "203.0.113.9" drainSched (raceExec sched) := by
      simp [raceExec, execSched, List.foldl_append]
    have heta : raceExec sched
        = { a := (raceExec sched).a, b := (raceExec sched).b,
            db := dbOf (raceExec sched).a (raceExec sched).b } := by
      rw [← hdb]
    rw [hr, heta]
    exact h2
  · intro sched
    have hInv := raceInv_exec sched c0 raceInv_init
    obtain ⟨-, hdb0⟩ := hInv
    have hdb : (raceExec sched).db = dbOf (raceExec sched).a (raceExec sched).b := hdb0
    rw [hdb]
    exact dbOf_votes_le_one _ _

theorem filter_map_id_preserving (f : Submission → Submission) (p : Submission → Bool)
    (hf : ∀ s, p (f s) = p s) (l : List Submission) :
    (l.map f).filter p = (l.filter p).map f := by
  rw [List.filter_map]
  congr 1
  exact List.filter_congr (fun s _ => hf s)

theorem findSubmission_bump (d : Int) (sid t : Nat) (db : DB) :
    findSubmission (bumpCount d sid db) t
      = (findSubmission db t).map
          (fun s => if s.id == sid then { s with voteCount := s.voteCount + d } else s) := by
  unfold findSubmission bumpCount
  rw [filter_map_id_preserving, List.head?_map]
  intro s
  by_cases h : s.id == sid <;> simp [h]

theorem findSubmission_id (db : DB) (sid : Nat) (s : Submission)
    (h : findSubmission db sid = some s) : s.id = sid := by
  unfold findSubmission at h
  cases hf : db.submissions.filter (fun s => s.id == sid) with
  | nil => rw [hf] at h; simp at h
  | cons x xs =>
    rw [hf] at h
    simp only [List.head?_cons, Option.some.injEq] at h
    have hx : x ∈ db.submissions.filter (fun s => s.id == sid) := by
      rw [hf]; exact List.mem_cons_self _ _
    have hid := (List.mem_filter.mp hx).2
    rw [← h]
    simpa using hid

theorem findSubmission_after_bump (d : Int) (sid : Nat) (db db' : DB) (sub : Submission)
    (hsubs : db'.submissions = db.submissions)
    (hs : findSubmission db sid = some sub) :
    findSubmission (bumpCount d sid db') sid
      = some { sub with voteCount := sub.voteCount + d } := by
  have hfs : findSubmission db' sid = some sub := by
    unfold findSubmission
    rw [hsubs]
    exact hs
  rw [findSubmission_bump, hfs]
  have hid := findSubmission_id db sid sub hs
  simp [hid]

theorem castVote_ok (uid sid : Nat) (ip : String) (db : DB) (v : Vote) (n : Int)
    (h : (castVote uid sid ip db).1 = .ok (v, n)) :
    ∃ sub, findSubmission db sid = some sub ∧
      sub.status = .READY ∧ sub.disqualified = false ∧
      votesFor db sid uid = [] ∧
      v = { id := db.nextVoteId, submissionId := sid, userId := uid, ipAddress := ip } ∧
      n = sub.voteCount + 1 ∧
      (castVote uid sid ip db).2 =
        { challenges := db.challenges,
          submissions := (bumpCount 1 sid db).submissions,
          votes := db.votes ++ [v],
          published := db.published ++
            [{ topic := sub.challengeId, submissionId := sid, voteCount := n, action := .add }],
          nextVoteId := db.nextVoteId + 1 } := by
  cases hs : findSubmission db sid with
  | none =>
    simp only [castVote, hs] at h
    exact Except.noConfusion h
  | some sub =>
    refine ⟨sub, rfl, ?_⟩
    by_cases h1 : sub.status = .READY
    · by_cases h2 : sub.disqualified
      · simp only [castVote, hs, if_neg (not_not_intro h1), if_pos h2] at h
        exact Except.noConfusion h
      · by_cases h3 : ((findChallenge db sub.challengeId).all
            fun c => decide ¬(c.status = .VOTING)) = true
        · simp only [castVote, hs, if_neg (not_not_intro h1), if_neg h2, if_pos h3] at h
          exact Except.noConfusion h
        · by_cases h4 : votesFor db sid uid = []
          · have hfb := findSubmission_after_bump 1 sid db
              { db with
                votes := (db.votes ++ [Vote.mk db.nextVoteId sid uid ip]),
                nextVoteId := db.nextVoteId + 1 } sub rfl hs
            simp only [castVote, hs, if_neg (not_not_intro h1), if_neg h2, if_neg h3,
              if_neg (not_not_intro h4), insertVote, hfb, Except.ok.injEq,
              Prod.mk.injEq] at h
            obtain ⟨hv, hn⟩ := h
            refine ⟨h1, by simpa using h2, h4, hv.symm, by simpa using hn.symm, ?_⟩
            simp only [castVote, hs, if_neg (not_not_intro h1), if_neg h2, if_neg h3,
              if_neg (not_not_intro h4), insertVote, hfb]
            simp [publish, bumpCount, ← hv, ← hn]
          · simp only [castVote, hs, if_neg (not_not_intro h1), if_neg h2, if_neg h3,
              if_pos h4] at h
            exact Except.noConfusion h
    · simp only [castVote, hs, if_pos h1] at h
      exact Except.noConfusion h

theorem castVote_error_state (uid sid : Nat) (ip : String) (db : DB) (e : VoteErr)
    (h : (castVote uid sid ip db).1 = .error e) : (castVote uid sid ip db).2 = db := by
  cases hs : findSubmission db sid with
  | none => simp only [castVote, hs]
  | some sub =>
    by_cases h1 : sub.status = .READY
    · by_cases h2 : sub.disqualified
      · simp only [castVote, hs, if_neg (not_not_intro h1), if_pos h2]
      · by_cases h3 : ((findChallenge db sub.challengeId).all
            fun c => decide ¬(c.status = .VOTING)) = true
        · simp only [castVote, hs, if_neg (not_not_intro h1), if_neg h2, if_pos h3]
        · by_cases h4 : votesFor db sid uid = []
          · have hfb := findSubmission_after_bump 1 sid db
              { db with
                votes := (db.votes ++ [Vote.mk db.nextVoteId sid uid ip]),
                nextVoteId := db.nextVoteId + 1 } sub rfl hs
            simp only [castVote, hs, if_neg (not_not_intro h1), if_neg h2, if_neg h3,
              if_neg (not_not_intro h4), insertVote, hfb] at h
            exact Except.noConfusion h
          · simp only [castVote, hs, if_neg (not_not_intro h1), if_neg h2, if_neg h3,
              if_pos h4]
    · simp only [castVote, hs, if_pos h1]

theorem retractVote_ok (uid sid : Nat) (db : DB) (n : Int)
    (h : (retractVote uid sid db).1 = .ok n) :
    ∃ sub, findSubmission db sid = some sub ∧
      votesFor db sid uid ≠ [] ∧
      n = sub.voteCount - 1 ∧
      (retractVote uid sid db).2 =
        { challenges := db.challenges,
          submissions := (bumpCount (-1) sid db).submissions,
          votes := (db.votes.filter (fun v => ¬(v.submissionId == sid && v.userId == uid))),
          published := (db.published ++
            [{ topic := sub.challengeId, submissionId := sid, voteCount := n,
               action := .remove }]),
          nextVoteId := db.nextVoteId } := by
  cases hs : findSubmission db sid with
  | none =>
    simp only [retractVote, hs] at h
    exact Except.noConfusion h
  | some sub =>
    refine ⟨sub, rfl, ?_⟩
    by_cases h3 : ((findChallenge db sub.challengeId).all
        fun c => decide ¬(c.status = .VOTING)) = true
    · simp only [retractVote, hs, if_pos h3] at h
      exact Except.noConfusion h
    · by_cases h4 : votesFor db sid uid = []
      · simp only [retractVote, hs, if_neg h3, if_pos h4] at h
        exact Except.noConfusion h
      · have hfb := findSubmission_after_bump (-1) sid db
          { db with votes :=
            (db.votes.filter (fun v => ¬(v.submissionId == sid && v.userId == uid))) }
          sub rfl hs
        simp only [retractVote, hs, if_neg h3, if_neg h4, hfb, Except.ok.injEq] at h
        refine ⟨h4, by omega, ?_⟩
        simp only [retractVote, hs, if_neg h3, if_neg h4, hfb]
        simp only [publish, bumpCount]
        simp [← h]

theorem retractVote_error_state (uid sid : Nat) (db : DB) (e : VoteErr)
    (h : (retractVote uid sid db).1 = .error e) : (retractVote uid sid db).2 = db := by
  cases hs : findSubmission db sid with
  | none => simp only [retractVote, hs]
  | some sub =>
    by_cases h3 : ((findChallenge db sub.challengeId).all
        fun c => decide ¬(c.status = .VOTING)) = true
    · simp only [retractVote, hs, if_pos h3]
    · by_cases h4 : votesFor db sid uid = []
      · simp only [retractVote, hs, if_neg h3, if_pos h4]
      · have hfb := findSubmission_after_bump (-1) sid db
          { db with votes :=
            (db.votes.filter (fun v => ¬(v.submissionId == sid && v.userId == uid))) }
          sub rfl hs
        simp only [retractVote, hs, if_neg h3, if_neg h4, hfb] at h
        exact Except.noConfusion h

/-- C4 counterexample: four atomic steps into a CastVote call — its insert
done, its increment not yet run — the store holds the vote row while the
voteCount is still 0 and nothing is published, so the
insert/increment/publish unit is not atomic: a partial state with a Vote
row inserted and the counter not incremented is observable. -/
theorem C4_cex_partial_state :
    (raceExec [true, true, true, true]).db.votes = [v0] ∧
    findSubmission (raceExec [true, true, true, true]).db 1 = some sub0 ∧
    sub0.voteCount = 0 ∧
    (raceExec [true, true, true, true]).db.published = [] := by decide

/-- C4 (amended): the effects happen together at the granularity of a
completed call — a failed call changes nothing, and a successful CastVote
performs all of insert, increment by exactly 1, and publish of the add
delta, a successful RetractVote all of delete, decrement by exactly 1, and
publish of the remove delta — but the unit is not executed atomically: the
effects run as separate store round-trips, and the intermediate state after
the insert and before the increment is observable. -/
theorem C4_effects_per_completed_call :
    (∀ (uid sid : Nat) (ip : String) (db : DB) (e : VoteErr),
       (castVote uid sid ip db).1 = .error e → (castVote uid sid ip db).2 = db) ∧
    (∀ (uid sid : Nat) (ip : String) (db : DB) (v : Vote) (n : Int),
       (castVote uid sid ip db).1 = .ok (v, n) →
       ∃ sub, findSubmission db sid = some sub ∧
         (castVote uid sid ip db).2.votes = db.votes ++ [v] ∧
         findSubmission (castVote uid sid ip db).2 sid
           = some { sub with voteCount := sub.voteCount + 1 } ∧
         n = sub.voteCount + 1 ∧
         (castVote uid sid ip db).2.published = db.published ++
           [{ topic := sub.challengeId, submissionId := sid, voteCount := n,
              action := .add }]) ∧
    (∀ (uid sid : Nat) (db : DB) (e : VoteErr),
       (retractVote uid sid db).1 = .error e → (retractVote uid sid db).2 = db) ∧
    (∀ (uid sid : Nat) (db : DB) (n : Int),
       (retractVote uid sid db).1 = .ok n →
       ∃ sub, findSubmission db sid = some sub ∧
         (retractVote uid sid db).2.votes
           = db.votes.filter (fun v => ¬(v.submissionId == sid && v.userId == uid)) ∧
         findSubmission (retractVote uid sid db).2 sid
           = some { sub with voteCount := sub.voteCount - 1 } ∧
         n = sub.voteCount - 1 ∧
         (retractVote uid sid db).2.published = db.published ++
           [{ topic := sub.challengeId, submissionId := sid, voteCount := n,
              action := .remove }]) := by
  refine ⟨fun uid sid ip db e h => castVote_error_state uid sid ip db e h,
          ?_,
          fun uid sid db e h => retractVote_error_state uid sid db e h,
          ?_⟩
  · intro uid sid ip db v n h
    obtain ⟨sub, hs, -, -, -, -, hn, hstate⟩ := castVote_ok uid sid ip db v n h
    refine ⟨sub, hs, by rw [hstate], ?_, hn, by rw [hstate]⟩
    have hb : findSubmission (castVote uid sid ip db).2 sid
        = findSubmission (bumpCount 1 sid db) sid := by
      rw [hstate]; rfl
    rw [hb, findSubmission_after_bump 1 sid db db sub rfl hs]
  · intro uid sid db n h
    obtain ⟨sub, hs, -, hn, hstate⟩ := retractVote_ok uid sid db n h
    refine ⟨sub, hs, by rw [hstate], ?_, hn, by rw [hstate]⟩
    have hb : findSubmission (retractVote uid sid db).2 sid
        = findSubmission (bumpCount (-1) sid db) sid := by
      rw [hstate]; rfl
    rw [hb, findSubmission_after_bump (-1) sid db db sub rfl hs]
    have : sub.voteCount + (-1) = sub.voteCount - 1 := by ring
    rw [this]

/-- Closed instances of the amended effects law: on the race store, the
successful cast performs its three effects, and a cast against an empty
store fails and changes nothing. -/
theorem C4_effects_per_completed_call_witness :
    ((castVote 7 1 "203.0.113.9" (DB.mk [] [] [] [] 0)).2 = DB.mk [] [] [] [] 0) ∧
    (∃ sub, findSubmission db0 1 = some sub ∧
       (castVote 7 1 "203.0.113.9" db0).2.votes = db0.votes ++ [v0] ∧
       findSubmission (castVote 7 1 "203.0.113.9" db0).2 1
         = some { sub with voteCount := sub.voteCount + 1 } ∧
       (1 : Int) = sub.voteCount + 1 ∧
       (castVote 7 1 "203.0.113.9" db0).2.published = db0.published ++
         [{ topic := sub.challengeId, submissionId := 1, voteCount := 1,
            action := .add }]) :=
  ⟨C4_effects_per_completed_call.1 7 1 "203.0.113.9" (DB.mk [] [] [] [] 0)
     (.notFound "Submission") (by decide),
   C4_effects_per_completed_call.2.1 7 1 "203.0.113.9" db0 v0 1 (by decide)⟩

/-- C8: a unique-index violation (SQLSTATE 23505) raised by the vote insert
is translated by the errorHandler to a typed 409 Conflict response, never a
generic 500; and the race schedule in which both calls pass the
application-level pre-check indeed ends with the losing call holding that
store error, so the translation is exactly what surfaces the
concurrent-duplicate race to its caller. -/
theorem C8_unique_violation_surfaces_as_conflict :
    errorHandler (voteErrToApp .pgUnique)
      = { status := 409, error := "Conflict",
          message := "A record with this value already exists" } ∧
    (errorHandler (voteErrToApp .pgUnique)).status ≠ 500 ∧
    (raceExec [true, true, true, false, false, false]).b = .atInsert 1 ∧
    (raceExec ([true, true, true, false, false, false] ++ drainSched)).b
      = .done (.error .pgUnique) := by
  refine ⟨rfl, by decide, by decide, by decide⟩

/-- C7 scenario: a disqualified submission holding one vote by voter 7,
its challenge still in the voting phase. -/
def subD : Submission :=
  { id := 1, challengeId := 1, status := .READY, disqualified := true, voteCount := 1 }

/-- C7 scenario: the existing vote on the disqualified submission. -/
def vD : Vote := { id := 0, submissionId := 1, userId := 7, ipAddress := "203.0.113.9" }

/-- C7 scenario: the store holding the disqualified submission. -/
def dbD : DB :=
  { challenges := [ch0], submissions := [subD], votes := [vD],
    published := [], nextVoteId := 1 }

/-- C7 counterexample: RetractVote against a disqualified submission is not
rejected — the delete handler never reads the disqualified flag — and it
decrements the voteCount from 1 to 0. -/
theorem C7_cex_retract_from_disqualified :
    subD.disqualified = true ∧
    (retractVote 7 1 dbD).1 = .ok 0 ∧
    findSubmission (retractVote 7 1 dbD).2 1 = some { subD with voteCount := 0 } := by
  decide

/-- C7 (amended): a disqualified submission can never gain a vote —
CastVote against it is always rejected and leaves the state unchanged —
but it can lose votes: RetractVote performs no disqualification check, so
while voting is open a voter with an existing vote on a disqualified
submission can retract it, decrementing its voteCount by exactly 1. -/
theorem C7_disqualified_vote_mutation :
    (∀ (uid sid : Nat) (ip : String) (db : DB) (sub : Submission),
       findSubmission db sid = some sub → sub.disqualified = true →
       (∃ e, (castVote uid sid ip db).1 = .error e) ∧ (castVote uid sid ip db).2 = db) ∧
    (∀ (uid sid : Nat) (db : DB) (sub : Submission),
       findSubmission db sid = some sub → sub.disqualified = true →
       ((findChallenge db sub.challengeId).all
          fun c => decide ¬(c.status = .VOTING)) = false →
       votesFor db sid uid ≠ [] →
       (retractVote uid sid db).1 = .ok (sub.voteCount - 1)) := by
  constructor
  · intro uid sid ip db sub hs hd
    have herr : ∃ e, (castVote uid sid ip db).1 = .error e := by
      by_cases h1 : sub.status = .READY
      · exact ⟨.badRequest "This submission has been disqualified",
          by simp only [castVote, hs, if_neg (not_not_intro h1), if_pos hd]⟩
      · exact ⟨.badRequest "This submission is not ready for voting",
          by simp only [castVote, hs, if_pos h1]⟩
    obtain ⟨e, he⟩ := herr
    exact ⟨⟨e, he⟩, castVote_error_state uid sid ip db e he⟩
  · intro uid sid db sub hs hd hch hv
    have hfb := findSubmission_after_bump (-1) sid db
      { db with votes :=
        (db.votes.filter (fun v => ¬(v.submissionId == sid && v.userId == uid))) }
      sub rfl hs
    have hch' : ¬(((findChallenge db sub.challengeId).all
        fun c => decide ¬(c.status = .VOTING)) = true) := by
      rw [hch]; exact Bool.false_ne_true
    simp only [retractVote, hs, if_neg hch', if_neg hv, hfb]
    have : sub.voteCount + (-1) = sub.voteCount - 1 := by ring
    simp [this]

/-- Closed instances of the disqualification law: on the store holding the
disqualified submission, the cast is rejected without effect and the
retraction succeeds with the decremented count. -/
theorem C7_disqualified_vote_mutation_witness :
    ((∃ e, (castVote 7 1 "203.0.113.9" dbD).1 = .error e) ∧
       (castVote 7 1 "203.0.113.9" dbD).2 = dbD) ∧
    (retractVote 7 1 dbD).1 = .ok (subD.voteCount - 1) :=
  ⟨C7_disqualified_vote_mutation.1 7 1 "203.0.113.9" dbD subD (by decide) (by decide),
   C7_disqualified_vote_mutation.2 7 1 dbD subD (by decide) (by decide)
     (by decide) (by decide)⟩

/-- C3: CastVote checks its preconditions in the fixed order the spec lists
— missing submission, status not READY, disqualified, challenge not in the
voting phase, existing vote — each a distinct failure mode, the first
failing check determining the result; on success it returns the created
vote and the new voteCount. Stated as: the handler coincides with the
ordered-check specification on every store and input. -/
theorem C3_castVote_check_order :
    ∀ (uid sid : Nat) (ip : String) (db : DB),
      castVote uid sid ip db = specCastVote uid sid ip db := by
  intro uid sid ip db
  cases hs : findSubmission db sid with
  | none =>
    simp [castVote, specCastVote, castChecks, firstFailure, hs]
  | some sub =>
    by_cases h1 : sub.status = .READY
    · by_cases h2 : sub.disqualified
      · simp [castVote, specCastVote, castChecks, firstFailure, hs, h1, h2]
      · by_cases h3 : ((findChallenge db sub.challengeId).all
            fun c => decide ¬(c.status = .VOTING)) = true
        · simp only [decide_not] at h3
          simp [castVote, specCastVote, castChecks, firstFailure, hs, h1, h2, h3]
        · simp only [decide_not] at h3
          by_cases h4 : votesFor db sid uid = []
          · have hfb := findSubmission_after_bump 1 sid db
              { db with
                votes := (db.votes ++ [Vote.mk db.nextVoteId sid uid ip]),
                nextVoteId := db.nextVoteId + 1 } sub rfl hs
            simp [castVote, specCastVote, castChecks, firstFailure, hs, h1, h2, h3, h4,
              insertVote, hfb]
          · simp [castVote, specCastVote, castChecks, firstFailure, hs, h1, h2, h3, h4]
    · simp [castVote, specCastVote, castChecks, firstFailure, hs, h1]

/-- Percentage example store: one challenge with three READY submissions
holding vote counts 30, 20 and 10. -/
def dbEx : DB :=
  { challenges := [{ id := 1, status := .VOTING }],
    submissions :=
      [{ id := 11, challengeId := 1, status := .READY, disqualified := false, voteCount := 30 },
       { id := 12, challengeId := 1, status := .READY, disqualified := false, voteCount := 20 },
       { id := 13, challengeId := 1, status := .READY, disqualified := false, voteCount := 10 }],
    votes := [], published := [], nextVoteId := 0 }

/-- Rounding artifact store: vote counts [3, 1, 1, 1], total 6. -/
def db6 : DB :=
  { challenges := [{ id := 1, status := .VOTING }],
    submissions :=
      [{ id := 21, challengeId := 1, status := .READY, disqualified := false, voteCount := 3 },
       { id := 22, challengeId := 1, status := .READY, disqualified := false, voteCount := 1 },
       { id := 23, challengeId := 1, status := .READY, disqualified := false, voteCount := 1 },
       { id := 24, challengeId := 1, status := .READY, disqualified := false, voteCount := 1 }],
    votes := [], published := [], nextVoteId := 0 }

/-- Zero-votes store: one READY submission with voteCount 0. -/
def dbZero : DB :=
  { challenges := [{ id := 1, status := .VOTING }],
    submissions :=
      [{ id := 31, challengeId := 1, status := .READY, disqualified := false, voteCount := 0 }],
    votes := [], published := [], nextVoteId := 0 }

theorem enum_map_comp {β : Type} (g : Submission → β) (L : List Submission) :
    L.enum.map (fun p => g p.2) = L.map g := by
  rw [show (fun p : Nat × Submission => g p.2) = g ∘ Prod.snd from rfl,
    ← List.map_map, List.enum_map_snd]

theorem lb_entries_sub (cid : Nat) (db : DB) :
    (leaderboardOf cid db).entries.map (fun e => e.sub) = lbWindow cid db := by
  simp only [leaderboardOf, List.map_map]
  exact (enum_map_comp (fun s => s) (lbWindow cid db)).trans (List.map_id _)

theorem lb_entries_pct (cid : Nat) (db : DB) :
    (leaderboardOf cid db).entries.map (fun e => e.votePercentage)
      = (lbWindow cid db).map (fun s => pctOf s.voteCount (lbTotal cid db)) := by
  simp only [leaderboardOf, List.map_map]
  exact enum_map_comp (fun s => pctOf s.voteCount (lbTotal cid db)) (lbWindow cid db)

/-- C5: the leaderboard query never mutates state; for an existing
competition it returns exactly the ranked window — the eligible (READY,
non-disqualified) submissions of the competition sorted by voteCount
descending and capped at 50, all of them when at most 50 are eligible —
with totalVotes the sum of voteCount over only that window, each rank the
1-based position, each votePercentage computed by the
round-to-one-decimal formula; and on vote counts [30, 20, 10] the ranks
are [1, 2, 3] with percentages [50.0, 33.3, 16.7] and total 60. -/
theorem C5_leaderboard_snapshot :
    (∀ (cid : Nat) (db : DB), (fetchLeaderboard cid db).2 = db) ∧
    (∀ (cid : Nat) (db : DB) (ch : Challenge), findChallenge db cid = some ch →
       (fetchLeaderboard cid db).1 = .ok (leaderboardOf cid db)) ∧
    (∀ (cid : Nat) (db : DB),
       ((leaderboardOf cid db).entries.map (fun e => e.sub)).Pairwise voteGE ∧
       ((leaderboardOf cid db).entries.map (fun e => e.sub))
         = (List.insertionSort voteGE (eligibleSubs cid db)).take 50 ∧
       ((eligibleSubs cid db).length ≤ 50 →
         ((leaderboardOf cid db).entries.map (fun e => e.sub)).Perm
           (eligibleSubs cid db)) ∧
       (leaderboardOf cid db).totalVotes
         = ((leaderboardOf cid db).entries.map (fun e => e.sub.voteCount)).sum ∧
       (∀ (i : Nat) (hi : i < (leaderboardOf cid db).entries.length),
          ((leaderboardOf cid db).entries.get ⟨i, hi⟩).rank = i + 1 ∧
          ((leaderboardOf cid db).entries.get ⟨i, hi⟩).votePercentage
            = pctOf ((leaderboardOf cid db).entries.get ⟨i, hi⟩).sub.voteCount
                (leaderboardOf cid db).totalVotes)) ∧
    ((fetchLeaderboard 1 dbEx).1 = .ok (leaderboardOf 1 dbEx) ∧
     (leaderboardOf 1 dbEx).entries.map (fun e => (e.rank, e.votePercentage))
       = [(1, 50), (2, 333/10), (3, 167/10)] ∧
     (leaderboardOf 1 dbEx).totalVotes = 60) := by
  refine ⟨?_, ?_, ?_, rfl, ?_, by decide⟩
  · intro cid db
    cases h : findChallenge db cid <;> simp [fetchLeaderboard, h]
  · intro cid db ch hch
    simp [fetchLeaderboard, hch]
  · intro cid db
    refine ⟨?_, ?_, ?_, ?_, ?_⟩
    · rw [lb_entries_sub]
      exact List.Pairwise.sublist (List.take_sublist 50 _)
        (List.sorted_insertionSort voteGE (eligibleSubs cid db))
    · rw [lb_entries_sub]; rfl
    · intro hle
      rw [lb_entries_sub]
      have hw : lbWindow cid db = List.insertionSort voteGE (eligibleSubs cid db) := by
        apply List.take_of_length_le
        rw [(List.perm_insertionSort voteGE _).length_eq]
        exact hle
      rw [hw]
      exact List.perm_insertionSort voteGE _
    · have hv : (leaderboardOf cid db).entries.map (fun e => e.sub.voteCount)
          = (lbWindow cid db).map (fun s => s.voteCount) := by
        simp only [leaderboardOf, List.map_map]
        exact enum_map_comp (fun s => s.voteCount) (lbWindow cid db)
      rw [hv]; rfl
    · intro i hi
      constructor
      · simp [leaderboardOf, List.getElem_enum]
      · simp [leaderboardOf, List.getElem_enum]
  · norm_num [leaderboardOf, lbWindow, lbTotal, eligibleSubs, dbEx, pctOf, voteGE,
      List.insertionSort, List.orderedInsert, List.enum, List.enumFrom, round_eq]

/-- Closed instances of the leaderboard law at the three-submission store:
the state is unchanged, the result is the computed window, the window is a
permutation of the eligible submissions, and the first entry holds rank 1
with the formula percentage. -/
theorem C5_leaderboard_snapshot_witness :
    (fetchLeaderboard 1 dbEx).2 = dbEx ∧
    (fetchLeaderboard 1 dbEx).1 = .ok (leaderboardOf 1 dbEx) ∧
    ((leaderboardOf 1 dbEx).entries.map (fun e => e.sub)).Perm (eligibleSubs 1 dbEx) ∧
    (((leaderboardOf 1 dbEx).entries.get ⟨0, by decide⟩).rank = 0 + 1 ∧
     ((leaderboardOf 1 dbEx).entries.get ⟨0, by decide⟩).votePercentage
       = pctOf ((leaderboardOf 1 dbEx).entries.get ⟨0, by decide⟩).sub.voteCount
           (leaderboardOf 1 dbEx).totalVotes) :=
  ⟨C5_leaderboard_snapshot.1 1 dbEx,
   C5_leaderboard_snapshot.2.1 1 dbEx { id := 1, status := .VOTING } rfl,
   (C5_leaderboard_snapshot.2.2.1 1 dbEx).2.2.1 (by decide),
   (C5_leaderboard_snapshot.2.2.1 1 dbEx).2.2.2.2 0 (by decide)⟩

/-- C10: fetching the leaderboard of a competition id that does not exist
in the store returns a NotFound rejection — not an empty leaderboard with
totalVotes 0 — and mutates no state. -/
theorem C10_leaderboard_missing_challenge :
    ∀ (cid : Nat) (db : DB), findChallenge db cid = none →
      fetchLeaderboard cid db = (.error (.notFound "Challenge"), db) := by
  intro cid db h
  simp [fetchLeaderboard, h]

/-- Closed instance: challenge 99 does not exist in the race store, and the
leaderboard request for it is the NotFound rejection with the state
unchanged. -/
theorem C10_leaderboard_missing_challenge_witness :
    fetchLeaderboard 99 db0 = (.error (.notFound "Challenge"), db0) :=
  C10_leaderboard_missing_challenge 99 db0 (by decide)

theorem round_le_add_half (x : ℚ) : ((round x : ℤ) : ℚ) ≤ x + 1/2 := by
  have h := abs_sub_round x
  rw [abs_le] at h
  linarith [h.1, h.2]

theorem pct_sum_bound (T : Int) (hT : 0 < T) (ws : List Submission) :
    ((ws.map (fun s => pctOf s.voteCount T)).sum : ℚ)
      ≤ (((ws.map (fun s => s.voteCount)).sum : Int) : ℚ) / (T : ℚ) * 100
        + (ws.length : ℚ) / 20 := by
  induction ws with
  | nil => simp
  | cons s rest ih =>
    simp only [List.map_cons, List.sum_cons, List.length_cons]
    have hhead : pctOf s.voteCount T ≤ (s.voteCount : ℚ) / (T : ℚ) * 100 + 1 / 20 := by
      unfold pctOf
      rw [if_pos hT]
      have h := round_le_add_half ((s.voteCount : ℚ) / (T : ℚ) * 1000)
      linarith
    have hsplit : (((s.voteCount + (rest.map (fun s => s.voteCount)).sum : Int)) : ℚ)
          / (T : ℚ) * 100
        = (s.voteCount : ℚ) / (T : ℚ) * 100
          + (((rest.map (fun s => s.voteCount)).sum : Int) : ℚ) / (T : ℚ) * 100 := by
      push_cast
      ring
    have hlen : ((rest.length + 1 : ℕ) : ℚ) / 20 = (rest.length : ℚ) / 20 + 1 / 20 := by
      push_cast
      ring
    rw [hsplit, hlen]
    linarith [ih, hhead]

/-- C6 counterexample: with eligible vote counts [3, 1, 1, 1] (total 6)
the rounded percentages are [50, 16.7, 16.7, 16.7], which sum to
100.1 > 100, refuting the claim that the rounded percentages of a
leaderboard snapshot always sum to at most 100. -/
theorem C6_cex_sum_exceeds_100 :
    (fetchLeaderboard 1 db6).1 = .ok (leaderboardOf 1 db6) ∧
    (leaderboardOf 1 db6).entries.map (fun e => e.votePercentage)
      = [50, 167/10, 167/10, 167/10] ∧
    ¬(((leaderboardOf 1 db6).entries.map (fun e => e.votePercentage)).sum ≤ 100) := by
  refine ⟨rfl, ?_, ?_⟩
  · norm_num [leaderboardOf, lbWindow, lbTotal, eligibleSubs, db6, pctOf, voteGE,
      List.insertionSort, List.orderedInsert, List.enum, List.enumFrom, round_eq]
  · norm_num [leaderboardOf, lbWindow, lbTotal, eligibleSubs, db6, pctOf, voteGE,
      List.insertionSort, List.orderedInsert, List.enum, List.enumFrom, round_eq]

/-- C6 (amended): every votePercentage of a snapshot is 0 when the
snapshot's total vote count is not positive, and the rounded percentages
sum to at most 100 + n/20 where n is the number of returned entries (hence
at most 102.5 under the 50-entry cap); the sum can exceed 100 itself, as
the [3, 1, 1, 1] counterexample shows. -/
theorem C6_percentage_sum_bound :
    (∀ (cid : Nat) (db : DB),
       ((leaderboardOf cid db).entries.map (fun e => e.votePercentage)).sum
         ≤ 100 + ((leaderboardOf cid db).entries.length : ℚ) / 20) ∧
    (∀ (cid : Nat) (db : DB), (leaderboardOf cid db).totalVotes = 0 →
       ∀ e ∈ (leaderboardOf cid db).entries, e.votePercentage = 0) := by
  constructor
  · intro cid db
    have hlen : ((leaderboardOf cid db).entries.length : ℚ) = ((lbWindow cid db).length : ℚ) := by
      simp [leaderboardOf]
    rw [lb_entries_pct, hlen]
    by_cases hT : 0 < lbTotal cid db
    · have hb := pct_sum_bound (lbTotal cid db) hT (lbWindow cid db)
      have hTq : ((lbTotal cid db : Int) : ℚ) ≠ 0 := by
        exact_mod_cast hT.ne.symm
      have hself : (((lbWindow cid db).map (fun s => s.voteCount)).sum : Int) = lbTotal cid db := rfl
      rw [hself] at hb
      rw [div_self hTq] at hb
      · linarith
    · have hz : ∀ x ∈ (lbWindow cid db).map
          (fun s => pctOf s.voteCount (lbTotal cid db)), x = 0 := by
        intro x hx
        obtain ⟨s, -, rfl⟩ := List.mem_map.mp hx
        simp [pctOf, hT]
      rw [List.sum_eq_zero hz]
      positivity
  · intro cid db hT e he
    simp only [leaderboardOf] at he
    obtain ⟨p, -, rfl⟩ := List.mem_map.mp he
    have hT0 : lbTotal cid db = 0 := hT
    simp [pctOf, hT0]

/-- Closed instances of the percentage bound: the [3, 1, 1, 1] snapshot
stays under 100 + 4/20, and the zero-vote snapshot yields only zero
percentages. -/
theorem C6_percentage_sum_bound_witness :
    (((leaderboardOf 1 db6).entries.map (fun e => e.votePercentage)).sum
       ≤ 100 + ((leaderboardOf 1 db6).entries.length : ℚ) / 20) ∧
    (∀ e ∈ (leaderboardOf 1 dbZero).entries, e.votePercentage = 0) :=
  ⟨C6_percentage_sum_bound.1 1 db6,
   C6_percentage_sum_bound.2 1 dbZero (by decide)⟩

/-- The schema invariants for one submission: the unique index keeps at
most one vote row per voter, and the denormalized voteCount equals the
number of the submission's vote rows. -/
def SubInv (db : DB) (sid : Nat) : Prop :=
  (∀ uid : Nat, (votesFor db sid uid).length ≤ 1) ∧
  ∀ sub, findSubmission db sid = some sub →
    sub.voteCount = ((rowsFor db sid).length : Int)

theorem findSubmission_congr (db1 db2 : DB) (h : db1.submissions = db2.submissions)
    (t : Nat) : findSubmission db1 t = findSubmission db2 t := by
  unfold findSubmission
  rw [h]

theorem length_filter_split (p q : Vote → Bool) (l : List Vote) :
    (l.filter p).length
      = (l.filter (fun a => p a && q a)).length
        + (l.filter (fun a => p a && !q a)).length := by
  induction l with
  | nil => rfl
  | cons a t ih =>
    by_cases hp : p a
    · by_cases hq : q a <;> simp [List.filter_cons, hp, hq, ih] <;> omega
    · simp [List.filter_cons, hp, ih]

theorem cast_ok_step (uid s sid : Nat) (ip : String) (db : DB) (v : Vote) (n : Int)
    (sub : Submission)
    (hr : (castVote uid s ip db).1 = .ok (v, n))
    (hs : findSubmission db sid = some sub) (hinv : SubInv db sid) :
    ∃ sub', findSubmission (castVote uid s ip db).2 sid = some sub' ∧
      sub'.voteCount = sub.voteCount + (if s = sid then 1 else 0) ∧
      SubInv (castVote uid s ip db).2 sid := by
  obtain ⟨subS, hsS, -, -, hvempty, hv, -, hstate⟩ := castVote_ok uid s ip db v n hr
  have hFv : (castVote uid s ip db).2.votes = db.votes ++ [v] := by rw [hstate]
  have hFs : findSubmission (castVote uid s ip db).2 sid
      = (findSubmission db sid).map
          (fun t => if t.id == s then { t with voteCount := t.voteCount + 1 } else t) := by
    rw [hstate]
    show findSubmission (bumpCount 1 s db) sid = _
    exact findSubmission_bump 1 s sid db
  have hid : sub.id = sid := findSubmission_id db sid sub hs
  have hvs : v.submissionId = s := by rw [hv]
  have hvu : v.userId = uid := by rw [hv]
  have hVf : ∀ u : Nat, votesFor (castVote uid s ip db).2 sid u
      = votesFor db sid u
        ++ [v].filter (fun w => w.submissionId == sid && w.userId == u) := by
    intro u
    unfold votesFor
    rw [hFv, List.filter_append]
  have hRf : rowsFor (castVote uid s ip db).2 sid
      = rowsFor db sid ++ [v].filter (fun w => w.submissionId == sid) := by
    unfold rowsFor
    rw [hFv, List.filter_append]
  by_cases hss : s = sid
  · subst hss
    refine ⟨{ sub with voteCount := sub.voteCount + 1 }, ?_, by simp, ?_, ?_⟩
    · rw [hFs, hs]
      simp [hid]
    · intro u
      rw [hVf u]
      by_cases huu : uid = u
      · subst huu
        rw [hvempty]
        simp [hvs, hvu]
      · have hnil : [v].filter (fun w => w.submissionId == s && w.userId == u) = [] := by
          simp [hvs, hvu, huu]
        rw [hnil]
        simpa using hinv.1 u
    · intro t ht
      rw [hFs, hs] at ht
      have ht' : ({ sub with voteCount := sub.voteCount + 1 } : Submission) = t := by
        simpa [hid] using ht
      have hone : [v].filter (fun w => w.submissionId == s) = [v] := by simp [hvs]
      rw [← ht', hRf, hone]
      have hbase := hinv.2 sub hs
      simp only [List.length_append, List.length_cons, List.length_nil]
      show sub.voteCount + 1 = _
      push_cast
      omega
  · have hns : ¬(sub.id = s) := by
      rw [hid]
      exact fun hc => hss hc.symm
    refine ⟨sub, ?_, by simp [hss], ?_, ?_⟩
    · rw [hFs, hs]
      simp [hns]
    · intro u
      rw [hVf u]
      have hnil : [v].filter (fun w => w.submissionId == sid && w.userId == u) = [] := by
        simp [hvs, hss]
      rw [hnil]
      simpa using hinv.1 u
    · intro t ht
      rw [hFs, hs] at ht
      have ht' : sub = t := by
        simpa [hns] using ht
      have hnil : [v].filter (fun w => w.submissionId == sid) = [] := by
        simp [hvs, hss]
      rw [← ht', hRf, hnil]
      simpa using hinv.2 sub hs

theorem length_rows_split (sid uid : Nat) (l : List Vote) :
    (l.filter (fun w => w.submissionId == sid)).length
      = (l.filter (fun w => w.submissionId == sid && w.userId == uid)).length
        + (l.filter (fun w => w.submissionId == sid && !(w.userId == uid))).length := by
  induction l with
  | nil => rfl
  | cons a t ih =>
    by_cases h1 : a.submissionId == sid
    · by_cases h2 : a.userId == uid <;>
        simp [List.filter_cons, h1, h2, ih] <;> omega
    · simp [List.filter_cons, h1, ih]

theorem retract_ok_step (uid s sid : Nat) (db : DB) (n : Int) (sub : Submission)
    (hr : (retractVote uid s db).1 = .ok n)
    (hs : findSubmission db sid = some sub) (hinv : SubInv db sid) :
    ∃ sub', findSubmission (retractVote uid s db).2 sid = some sub' ∧
      sub'.voteCount = sub.voteCount - (if s = sid then 1 else 0) ∧
      SubInv (retractVote uid s db).2 sid := by
  obtain ⟨subS, hsS, hvne, hn, hstate⟩ := retractVote_ok uid s db n hr
  have hFv : (retractVote uid s db).2.votes
      = db.votes.filter (fun w => ¬(w.submissionId == s && w.userId == uid)) := by
    rw [hstate]
  have hFs : findSubmission (retractVote uid s db).2 sid
      = (findSubmission db sid).map
          (fun t => if t.id == s then { t with voteCount := t.voteCount + (-1) } else t) := by
    rw [hstate]
    show findSubmission (bumpCount (-1) s db) sid = _
    exact findSubmission_bump (-1) s sid db
  have hid : sub.id = sid := findSubmission_id db sid sub hs
  have hVle : ∀ u : Nat, (votesFor (retractVote uid s db).2 sid u).length ≤ 1 := by
    intro u
    have hsubl : List.Sublist (votesFor (retractVote uid s db).2 sid u)
        (votesFor db sid u) := by
      unfold votesFor
      rw [hFv]
      exact List.Sublist.filter _ (List.filter_sublist db.votes)
    exact le_trans hsubl.length_le (hinv.1 u)
  have hRf : rowsFor (retractVote uid s db).2 sid
      = db.votes.filter (fun w =>
          (w.submissionId == sid) && (¬(w.submissionId == s && w.userId == uid))) := by
    unfold rowsFor
    rw [hFv, List.filter_filter]
  by_cases hss : s = sid
  · subst hss
    have hv2 : rowsFor (retractVote uid s db).2 s
        = db.votes.filter (fun w => w.submissionId == s && !(w.userId == uid)) := by
      rw [hRf]
      apply List.filter_congr
      intro w _
      by_cases h1 : w.submissionId == s <;> by_cases h2 : w.userId == uid <;>
        simp [h1, h2]
    have hsplit := length_rows_split s uid db.votes
    have hrow_eq : (rowsFor db s).length
        = (votesFor db s uid).length
          + (db.votes.filter (fun w => w.submissionId == s && !(w.userId == uid))).length := by
      unfold rowsFor votesFor
      exact hsplit
    have hvone : (votesFor db s uid).length = 1 := by
      have h1 : 0 < (votesFor db s uid).length := List.length_pos.mpr hvne
      have h2 := hinv.1 uid
      omega
    refine ⟨{ sub with voteCount := sub.voteCount + (-1) }, ?_, ?_, ?_, ?_⟩
    · rw [hFs, hs]
      simp [hid]
    · have hif : (if s = s then (1 : Int) else 0) = 1 := by simp
      rw [hif]
      show sub.voteCount + (-1) = sub.voteCount - 1
      omega
    · exact hVle
    · intro t ht
      rw [hFs, hs] at ht
      have ht' : ({ sub with voteCount := sub.voteCount + (-1) } : Submission) = t := by
        simpa [hid] using ht
      rw [← ht', hv2]
      have hbase := hinv.2 sub hs
      show sub.voteCount + (-1) = _
      omega
  · have hns : ¬(sub.id = s) := by
      rw [hid]
      exact fun hc => hss hc.symm
    have hrows : rowsFor (retractVote uid s db).2 sid = rowsFor db sid := by
      rw [hRf]
      have hrr : rowsFor db sid = db.votes.filter (fun w => w.submissionId == sid) := rfl
      rw [hrr]
      apply List.filter_congr
      intro w _
      by_cases h1 : w.submissionId == sid
      · have h1' : w.submissionId = sid := by simpa using h1
        have h2 : (w.submissionId == s) = false := by
          simp [h1']
          exact fun hc => hss hc.symm
        simp [h1, h2]
      · simp [h1]
    refine ⟨sub, ?_, by simp [hss], ?_, ?_⟩
    · rw [hFs, hs]
      simp [hns]
    · exact hVle
    · intro t ht
      rw [hFs, hs] at ht
      have ht' : sub = t := by
        simpa [hns] using ht
      rw [← ht', hrows]
      exact hinv.2 sub hs

theorem applyOp_step (op : LedgerOp) (db : DB) (sid : Nat) (sub : Submission)
    (hs : findSubmission db sid = some sub) (hinv : SubInv db sid) :
    ∃ sub', findSubmission (applyOp db op) sid = some sub' ∧
      sub'.voteCount = sub.voteCount
        + (if isSuccCastOn sid db op then (1 : Int) else 0)
        - (if isSuccRetractOn sid db op then (1 : Int) else 0) ∧
      SubInv (applyOp db op) sid := by
  cases op with
  | cast uid s ip =>
    cases hr : (castVote uid s ip db).1 with
    | error e =>
      have hdb := castVote_error_state uid s ip db e hr
      refine ⟨sub, ?_, ?_, ?_⟩
      · show findSubmission (castVote uid s ip db).2 sid = some sub
        rw [hdb]
        exact hs
      · simp [isSuccCastOn, isSuccRetractOn, hr, isOkE]
      · show SubInv (castVote uid s ip db).2 sid
        rw [hdb]
        exact hinv
    | ok vn =>
      obtain ⟨v, n⟩ := vn
      obtain ⟨sub', h1, h2, h3⟩ := cast_ok_step uid s sid ip db v n sub hr hs hinv
      refine ⟨sub', h1, ?_, h3⟩
      have hsucc : isSuccCastOn sid db (LedgerOp.cast uid s ip) = (s == sid) := by
        simp [isSuccCastOn, hr, isOkE]
      have hret : isSuccRetractOn sid db (LedgerOp.cast uid s ip) = false := rfl
      rw [hsucc, hret]
      by_cases hss : s = sid
      · simp [hss] at h2 ⊢
        omega
      · simp [hss] at h2 ⊢
        omega
  | retract uid s =>
    cases hr : (retractVote uid s db).1 with
    | error e =>
      have hdb := retractVote_error_state uid s db e hr
      refine ⟨sub, ?_, ?_, ?_⟩
      · show findSubmission (retractVote uid s db).2 sid = some sub
        rw [hdb]
        exact hs
      · simp [isSuccCastOn, isSuccRetractOn, hr, isOkE]
      · show SubInv (retractVote uid s db).2 sid
        rw [hdb]
        exact hinv
    | ok n =>
      obtain ⟨sub', h1, h2, h3⟩ := retract_ok_step uid s sid db n sub hr hs hinv
      refine ⟨sub', h1, ?_, h3⟩
      have hsucc : isSuccRetractOn sid db (LedgerOp.retract uid s) = (s == sid) := by
        simp [isSuccRetractOn, hr, isOkE]
      have hcast : isSuccCastOn sid db (LedgerOp.retract uid s) = false := rfl
      rw [hsucc, hcast]
      by_cases hss : s = sid
      · simp [hss] at h2 ⊢
        omega
      · simp [hss] at h2 ⊢
        omega

/-- C2: starting from a store satisfying the schema invariants for a
submission (voteCount equals its number of vote rows; at most one row per
voter), any sequence of ledger invocations of which N are successful casts
on that submission and M successful retractions leaves its voteCount at
the initial value + N − M, and the count is never negative — every prefix
of a sequence being itself such a sequence, the count is non-negative at
every intermediate point as well. -/
theorem C2_counter_consistency :
    ∀ (ops : List LedgerOp) (db : DB) (sid : Nat) (sub : Submission),
      findSubmission db sid = some sub → SubInv db sid →
      ∃ subf, findSubmission (runLedger sid db ops).2.2 sid = some subf ∧
        subf.voteCount = sub.voteCount + ((runLedger sid db ops).1 : Int)
          - ((runLedger sid db ops).2.1 : Int) ∧
        0 ≤ subf.voteCount := by
  intro ops
  induction ops with
  | nil =>
    intro db sid sub hs hinv
    refine ⟨sub, hs, by simp [runLedger], ?_⟩
    rw [hinv.2 sub hs]
    exact Int.natCast_nonneg _
  | cons op rest ih =>
    intro db sid sub hs hinv
    obtain ⟨sub1, hs1, hcnt1, hinv1⟩ := applyOp_step op db sid sub hs hinv
    obtain ⟨subf, hsf, hcntf, hnn⟩ := ih (applyOp db op) sid sub1 hs1 hinv1
    have hrun : runLedger sid db (op :: rest)
        = ((if isSuccCastOn sid db op then 1 else 0)
             + (runLedger sid (applyOp db op) rest).1,
           (if isSuccRetractOn sid db op then 1 else 0)
             + (runLedger sid (applyOp db op) rest).2.1,
           (runLedger sid (applyOp db op) rest).2.2) := rfl
    refine ⟨subf, ?_, ?_, hnn⟩
    · rw [hrun]
      exact hsf
    · rw [hrun]
      by_cases hc : isSuccCastOn sid db op <;>
        by_cases hrr : isSuccRetractOn sid db op <;>
        simp [hc, hrr] at hcnt1 ⊢ <;>
        omega

/-- The operation sequence of the counter-law witness: cast, retract, cast
by voter 7 on submission 1. -/
def opsW : List LedgerOp :=
  [.cast 7 1 "203.0.113.9", .retract 7 1, .cast 7 1 "203.0.113.9"]

/-- Closed instance of the counter law on the race store: after cast,
retract, cast the tracked submission still exists with count
0 + N − M ≥ 0. -/
theorem C2_counter_consistency_witness :
    ∃ subf, findSubmission (runLedger 1 db0 opsW).2.2 1 = some subf ∧
      subf.voteCount = sub0.voteCount + ((runLedger 1 db0 opsW).1 : Int)
        - ((runLedger 1 db0 opsW).2.1 : Int) ∧
      0 ≤ subf.voteCount :=
  C2_counter_consistency opsW db0 1 sub0 (by decide)
    (by
      constructor
      · intro uid
        simp [votesFor, db0]
      · intro sub h
        have hx : sub = sub0 := by
          have h0 : (some sub0 : Option Submission) = some sub := h
          exact (Option.some.inj h0).symm
        rw [hx]
        decide)

theorem flatMap_listeners_nil {α : Type} (l : List α) :
    l.flatMap (fun _ => ([] : List String)) = [] := by
  induction l with
  | nil => rfl
  | cons a t ih => simp [List.flatMap_cons, ih]

/-- The failing input's published vote delta payload. -/
def deltaPayload : String :=
  "\x7b\"submissionId\":\"s1\",\"voteCount\":1,\"action\":\"add\"\x7d"

/-- C9: what the stream route actually does. Without a competition id it
answers 400 and creates no subscriber; with one, the first frame is the
connected acknowledgement — but the handler passed its would-be message
handler into the ioredis subscribe completion slot and registered no on
message listener, so the only further write is the single frame carrying
the interpolated null error argument, and no published event is ever
forwarded: for every sequence of published events, the client receives
exactly the acknowledgement and the null frame, and in particular the
delta published on votes:c1 never reaches the client of c1. The
comment-only 30000-millisecond keep-alive conjunct does hold. -/
theorem C9_stream_never_forwards :
    (streamOpen none = .error (400, "challengeId is required")) ∧
    (∀ cid : String, ∃ conn, streamOpen (some cid) = .ok conn ∧
       conn.initialWrites = [sseData (connectedJson cid)] ∧
       conn.messageListeners = [] ∧
       (∀ pubs : List (String × String),
          clientWrites conn pubs
            = [sseData (connectedJson cid), subscribeCompletionWrite])) ∧
    (clientWrites { topic := "votes:c1",
                    initialWrites := [sseData (connectedJson "c1")],
                    messageListeners := [] } [("votes:c1", deltaPayload)]
       = [sseData (connectedJson "c1"), sseData "null"] ∧
     sseData deltaPayload ∉
       clientWrites { topic := "votes:c1",
                      initialWrites := [sseData (connectedJson "c1")],
                      messageListeners := [] } [("votes:c1", deltaPayload)]) ∧
    (heartbeatLine = ": heartbeat\n\n" ∧ heartbeatLine = ":" ++ " heartbeat\n\n" ∧
     heartbeatIntervalMs = 30000) := by
  have hempty : ∀ (topic : String) (ws : List String)
      (pubs : List (String × String)),
      clientWrites { topic := topic, initialWrites := ws,
                     messageListeners := [] } pubs
        = ws ++ [subscribeCompletionWrite] := by
    intro topic ws pubs
    unfold clientWrites
    simp [flatMap_listeners_nil]
  refine ⟨rfl, ?_, ⟨?_, ?_⟩, rfl, rfl, rfl⟩
  · intro cid
    refine ⟨_, rfl, rfl, rfl, ?_⟩
    intro pubs
    simpa using hempty ("votes:" ++ cid) [sseData (connectedJson cid)] pubs
  · simpa using hempty "votes:c1" [sseData (connectedJson "c1")]
      [("votes:c1", deltaPayload)]
  · rw [hempty "votes:c1" [sseData (connectedJson "c1")] [("votes:c1", deltaPayload)]]
    decide

end BeatBound
